import Mathlib

/-!
Verification development for `src/solar.py`, a single-script solar-telemetry
dashboard built on pandas.  The script loads a CSV into a DataFrame, derives
`Hour` and `Month` columns from `Timestamp`, filters rows by time-of-day with
a boolean mask, computes aggregate KPIs and a per-row `Efficiency` column,
groups average power by hour, extracts fault rows, and re-serializes the
filtered frame to CSV.

Modelling choices:
* A DataFrame is a list of records (row order = list order).
* Numeric CSV columns are modelled as exact rationals `ℚ`; pandas float
  arithmetic that can produce non-finite values (division by zero, `mean`/
  `max` of an empty column) is modelled by the extended type `PFloat`
  (`val q | inf | negInf | nan`), following numpy semantics.
* `datetime.time` values compare lexicographically on
  (hour, minute, second, microsecond), which is order-isomorphic to the
  count of time-units since midnight; a time-of-day is therefore a `Nat`.
* Boolean-mask row selection (`df[mask]`) is modelled by `maskSelect`; in
  pandas it returns a fresh copy of the selected rows, so the pipeline
  state carries the original frame unchanged.
* The CSV text emitted by `to_csv` is modelled at cell granularity (typed
  cell values in column order under a header row); the textual encoding
  itself belongs to the CSV library, which the spec treats as a black box.
-/

/-- A parsed `Timestamp` value: calendar fields plus the time-of-day
`tod` measured in units since midnight (`.dt.hour` is `tod / 3600` when
the unit is seconds). -/
structure Timestamp where
  year : Nat
  month : Nat
  day : Nat
  tod : Nat
  deriving DecidableEq, Repr

/-- The `.dt.hour` accessor: hour-of-day of a timestamp. -/
def Timestamp.hour (t : Timestamp) : Nat :=
  t.tod / 3600

/-- One raw CSV row, with the nine columns the script reads
(`pd.read_csv` output, after `Timestamp` has been parsed by
`pd.to_datetime`). -/
structure RawRecord where
  timestamp : Timestamp
  power_Output_W : ℚ
  solar_Irradiance_W_m2 : ℚ
  battery_Charge_Level_pct : ℚ
  co2_Emissions_Saved_kg : ℚ
  energy_Saved_kWh : ℚ
  panel_Temperature_C : ℚ
  load_Consumption_W : ℚ
  fault_Status : String
  deriving DecidableEq, Repr

/-- One row of the loaded Dataset: the raw columns plus the derived
`Hour` and `Month` columns added by `load_data` (lines 19-20). -/
structure Record where
  timestamp : Timestamp
  power_Output_W : ℚ
  solar_Irradiance_W_m2 : ℚ
  battery_Charge_Level_pct : ℚ
  co2_Emissions_Saved_kg : ℚ
  energy_Saved_kWh : ℚ
  panel_Temperature_C : ℚ
  load_Consumption_W : ℚ
  fault_Status : String
  hour : Nat
  month : Nat
  deriving DecidableEq, Repr

/-- Row-wise action of `load_data` (src/solar.py lines 16-21): keep the raw
columns and derive `Hour = Timestamp.dt.hour`, `Month = Timestamp.dt.month`. -/
def loadRecord (r : RawRecord) : Record :=
  { timestamp := r.timestamp
    power_Output_W := r.power_Output_W
    solar_Irradiance_W_m2 := r.solar_Irradiance_W_m2
    battery_Charge_Level_pct := r.battery_Charge_Level_pct
    co2_Emissions_Saved_kg := r.co2_Emissions_Saved_kg
    energy_Saved_kWh := r.energy_Saved_kWh
    panel_Temperature_C := r.panel_Temperature_C
    load_Consumption_W := r.load_Consumption_W
    fault_Status := r.fault_Status
    hour := r.timestamp.hour
    month := r.timestamp.month }

/-- `load_data` (src/solar.py lines 15-21): parse every row and append the
derived `Hour` and `Month` columns. -/
def load_data (raw : List RawRecord) : List Record :=
  raw.map loadRecord

/-- Boolean-mask row selection `df[mask]`: keep the rows whose mask entry is
`true`, in order.  (In pandas this produces a fresh frame, a copy.) -/
def maskSelect {α : Type} : List α → List Bool → List α
  | [], _ => []
  | _ :: _, [] => []
  | r :: rs, b :: bs => if b then r :: maskSelect rs bs else maskSelect rs bs

/-- The elementwise conjunction of the two comparison masks of
src/solar.py lines 37-38:
`(df["Timestamp"].dt.time >= start_time) & (df["Timestamp"].dt.time <= end_time)`. -/
def timeMask (df : List Record) (start_time end_time : Nat) : List Bool :=
  List.zipWith (fun a b => a && b)
    (df.map fun r => decide (start_time ≤ r.timestamp.tod))
    (df.map fun r => decide (r.timestamp.tod ≤ end_time))

/-- `df_filtered` (src/solar.py lines 36-39): boolean-mask selection of the
rows whose time-of-day lies in the window. -/
def df_filtered (df : List Record) (start_time end_time : Nat) : List Record :=
  maskSelect df (timeMask df start_time end_time)

/-- Extended float value produced by pandas arithmetic: a finite value, a
signed infinity, or NaN. -/
inductive PFloat where
  | val : ℚ → PFloat
  | inf : PFloat
  | negInf : PFloat
  | nan : PFloat
  deriving DecidableEq, Repr

/-- Finiteness of an extended float value. -/
def PFloat.isFinite : PFloat → Bool
  | .val _ => true
  | _ => false

/-- Numpy/pandas float division: a nonzero numerator divided by zero gives a
signed infinity, `0/0` gives NaN, and no exception is raised. -/
def pdDiv (x y : ℚ) : PFloat :=
  if y = 0 then
    if 0 < x then .inf else if x < 0 then .negInf else .nan
  else .val (x / y)

/-- Pandas `Series.sum()`: the sum of the column; on an empty column this is
`0.0`, a finite value, not NaN. -/
def pdSum (l : List ℚ) : PFloat :=
  .val l.sum

/-- Pandas `Series.mean()`: sum divided by length on a nonempty column, NaN
on an empty one (no exception). -/
def pdMean (l : List ℚ) : PFloat :=
  if l.isEmpty then .nan else .val (l.sum / l.length)

/-- Pandas `Series.max()`: the greatest entry of a nonempty column, NaN on an
empty one (no exception). -/
def pdMax : List ℚ → PFloat
  | [] => .nan
  | x :: xs => .val (xs.foldl max x)

/-- Exact sum of the `Energy_Saved_kWh` column (src/solar.py line 46). -/
def sumEnergy (v : List Record) : ℚ :=
  (v.map (·.energy_Saved_kWh)).sum

/-- Exact sum of the `CO2_Emissions_Saved_kg` column (src/solar.py line 47). -/
def sumCO2 (v : List Record) : ℚ :=
  (v.map (·.co2_Emissions_Saved_kg)).sum

/-- KPI card value `Energy Saved` (line 46): `df_filtered['Energy_Saved_kWh'].sum()`. -/
def kpiEnergySaved (v : List Record) : PFloat :=
  pdSum (v.map (·.energy_Saved_kWh))

/-- KPI card value `CO₂ Saved` (line 47): `df_filtered['CO2_Emissions_Saved_kg'].sum()`. -/
def kpiCO2Saved (v : List Record) : PFloat :=
  pdSum (v.map (·.co2_Emissions_Saved_kg))

/-- KPI card value `Avg Panel Temp` (line 48): `df_filtered['Panel_Temperature_C'].mean()`. -/
def kpiAvgPanelTemp (v : List Record) : PFloat :=
  pdMean (v.map (·.panel_Temperature_C))

/-- KPI card value `Max Power` (line 49): `df_filtered['Power_Output_W'].max()`. -/
def kpiMaxPower (v : List Record) : PFloat :=
  pdMax (v.map (·.power_Output_W))

/-- `PANEL_AREA = 1.6` (src/solar.py line 54). -/
def PANEL_AREA : ℚ := 1.6

/-- A row of `df_filtered` after the `Efficiency` column has been assigned
(src/solar.py line 55). -/
structure RecordE extends Record where
  efficiency : PFloat
  deriving DecidableEq, Repr

/-- Row-wise `Efficiency` assignment (line 55):
`Power_Output_W / (Solar_Irradiance_W/m2 * PANEL_AREA)` under pandas float
division semantics. -/
def addEfficiency (r : Record) : RecordE :=
  { r with efficiency := pdDiv r.power_Output_W (r.solar_Irradiance_W_m2 * PANEL_AREA) }

/-- The filtered view with its derived `Efficiency` column. -/
def withEfficiency (v : List Record) : List RecordE :=
  v.map addEfficiency

/-- Insert one row's (hour, power) observation into a key-sorted group
accumulator of `(hour, power sum, row count)` triples. -/
def insertGroup (h : Nat) (p : ℚ) : List (Nat × ℚ × Nat) → List (Nat × ℚ × Nat)
  | [] => [(h, p, 1)]
  | g :: gs =>
      if h < g.1 then (h, p, 1) :: g :: gs
      else if h = g.1 then (g.1, p + g.2.1, g.2.2 + 1) :: gs
      else g :: insertGroup h p gs

/-- Group the view's rows by the `Hour` column, accumulating the sum and
count of `Power_Output_W` per hour, keys ascending (the semantics of
pandas `groupby('Hour')`, whose keys are sorted by default). -/
def groupAcc (v : List RecordE) : List (Nat × ℚ × Nat) :=
  v.foldr (fun r acc => insertGroup r.hour r.power_Output_W acc) []

/-- `hourly_avg` (src/solar.py line 101):
`df_filtered.groupby('Hour')["Power_Output_W"].mean()` — for each hour
present in the view, the mean power output, keys ascending. -/
def hourly_avg (v : List RecordE) : List (Nat × ℚ) :=
  (groupAcc v).map fun g => (g.1, g.2.1 / (g.2.2 : ℚ))

/-- Association lookup of an hour's (sum, count) entry in a group
accumulator. -/
def findGroup (k : Nat) : List (Nat × ℚ × Nat) → Option (ℚ × Nat)
  | [] => none
  | g :: gs => if k = g.1 then some g.2 else findGroup k gs

/-- `faults` (src/solar.py line 108): boolean-mask selection of the rows
whose `Fault_Status` differs from the sentinel `"No Fault"`. -/
def faults (v : List RecordE) : List RecordE :=
  maskSelect v (v.map fun r => decide (r.fault_Status ≠ "No Fault"))

/-- The two render states of the fault report (src/solar.py lines 109-113). -/
inductive FaultIndicator where
  | warning
  | success
  deriving DecidableEq, Repr

/-- Fault report indicator (lines 109-113): `if not faults.empty` show the
warning banner, else the success banner. -/
def faultIndicator (v : List RecordE) : FaultIndicator :=
  if (faults v).isEmpty then .success else .warning

/-- One CSV cell of the exported file, at value granularity. -/
inductive Cell where
  | str : String → Cell
  | num : ℚ → Cell
  | dt : Timestamp → Cell
  | intVal : Nat → Cell
  | ext : PFloat → Cell
  deriving DecidableEq, Repr

/-- A CSV table: a header row of column names and the data rows. -/
structure CsvTable where
  header : List String
  rows : List (List Cell)
  deriving DecidableEq, Repr

/-- The column order of `df_filtered` at export time: the nine CSV columns,
then `Hour` and `Month` (appended by `load_data`), then `Efficiency`
(appended at line 55).  `to_csv` writes every column of the frame. -/
def exportHeader : List String :=
  ["Timestamp", "Power_Output_W", "Solar_Irradiance_W/m2", "Battery_Charge_Level_%",
   "CO2_Emissions_Saved_kg", "Energy_Saved_kWh", "Panel_Temperature_C",
   "Load_Consumption_W", "Fault_Status", "Hour", "Month", "Efficiency"]

/-- One exported data row, cells in `exportHeader` order. -/
def exportRow (r : RecordE) : List Cell :=
  [.dt r.timestamp, .num r.power_Output_W, .num r.solar_Irradiance_W_m2,
   .num r.battery_Charge_Level_pct, .num r.co2_Emissions_Saved_kg,
   .num r.energy_Saved_kWh, .num r.panel_Temperature_C, .num r.load_Consumption_W,
   .str r.fault_Status, .intVal r.hour, .intVal r.month, .ext r.efficiency]

/-- `df_filtered.to_csv(index=False)` (src/solar.py line 118): header row
followed by every row of the view in order, no index column. -/
def exportCsv (v : List RecordE) : CsvTable :=
  ⟨exportHeader, v.map exportRow⟩

/-- Loader-equivalent parsing of one exported row: read back each cell of
the exported layout, re-deriving `Hour` and `Month` from the parsed
`Timestamp` as `load_data` does (lines 18-20); the persisted `Hour` and
`Month` cells are overwritten, and the persisted `Efficiency` cell is read
back as an ordinary column (`load_data` does not recompute it). -/
def parseRow : List Cell → Option RecordE
  | [Cell.dt t, Cell.num p, Cell.num ir, Cell.num b, Cell.num c, Cell.num en,
     Cell.num pt, Cell.num lc, Cell.str fs, Cell.intVal _, Cell.intVal _, Cell.ext ef] =>
      some { timestamp := t, power_Output_W := p, solar_Irradiance_W_m2 := ir,
             battery_Charge_Level_pct := b, co2_Emissions_Saved_kg := c,
             energy_Saved_kWh := en, panel_Temperature_C := pt,
             load_Consumption_W := lc, fault_Status := fs,
             hour := t.hour, month := t.month, efficiency := ef }
  | _ => none

/-- Loader-equivalent parsing of a whole exported table, row by row. -/
def parseCsv (t : CsvTable) : Option (List RecordE) :=
  t.rows.mapM parseRow

/-- The data state of one render cycle: the loaded Dataset and the
filtered view. -/
structure DashState where
  df : List Record
  view : List RecordE
  deriving Repr

/-- One render cycle over the data (src/solar.py lines 36-55): build
`df_filtered` by mask selection — which copies the selected rows — and
assign its `Efficiency` column; the original frame `df` is carried along
untouched. -/
def renderCycle (df0 : List Record) (s e : Nat) : DashState :=
  { df := df0, view := withEfficiency (df_filtered df0 s e) }

/-- A sample timestamp: 2024-05-10, 10:00:00 (time-of-day 36000 s). -/
def tsA : Timestamp := ⟨2024, 5, 10, 36000⟩

/-- A sample raw row matching the spec's efficiency example
(`Power_Output_W = 160`, `Solar_Irradiance_W/m2 = 100`). -/
def rawA : RawRecord := ⟨tsA, 160, 100, 50, 2, 3, 45, 120, "No Fault"⟩

/-- The sample row after loading. -/
def recA : Record := loadRecord rawA

/-- A view row carrying a deliberately tampered `Efficiency` value, to
separate "persisted" from "recomputed" on the export round trip. -/
def recB : RecordE := ⟨recA, PFloat.val 42⟩

/-- Selecting with the mask obtained by mapping a predicate over the list is
`List.filter`. -/
theorem maskSelect_map {α : Type} (p : α → Bool) (l : List α) :
    maskSelect l (l.map p) = l.filter p := by
  induction l with
  | nil => rfl
  | cons r rs ih =>
      by_cases h : p r <;> simp [maskSelect, List.filter, h, ih]

/-- The conjunction-of-masks used by the time filter is the map of the
conjoined row predicate. -/
theorem timeMask_eq_map (df : List Record) (s e : Nat) :
    timeMask df s e
      = df.map fun r => decide (s ≤ r.timestamp.tod) && decide (r.timestamp.tod ≤ e) := by
  induction df with
  | nil => rfl
  | cons r rs ih => simp [timeMask] at ih ⊢

/-- The mask-based time filter is the stable `List.filter` of the window
predicate. -/
theorem df_filtered_eq_filter (df : List Record) (s e : Nat) :
    df_filtered df s e
      = df.filter fun r => decide (s ≤ r.timestamp.tod) && decide (r.timestamp.tod ≤ e) := by
  rw [df_filtered, timeMask_eq_map, maskSelect_map]

/-- The filtered view is a sublist of the original dataset. -/
theorem df_filtered_sublist (df : List Record) (s e : Nat) :
    (df_filtered df s e).Sublist df := by
  rw [df_filtered_eq_filter]; exact List.filter_sublist df

/-- C1: for every Dataset and every start/end time-of-day with start ≤ end,
the time filter returns exactly the records whose timestamp's time-of-day `t`
satisfies `start ≤ t ≤ end` (both bounds inclusive) — it equals the stable
`List.filter` of that predicate — and the resulting view preserves the
original row order (it is a sublist of the dataset). -/
theorem df_filtered_window_spec (df : List Record) (s e : Nat) (h : s ≤ e) :
    df_filtered df s e
        = (df.filter fun r => decide (s ≤ r.timestamp.tod) && decide (r.timestamp.tod ≤ e))
      ∧ (df_filtered df s e).Sublist df :=
  ⟨df_filtered_eq_filter df s e, df_filtered_sublist df s e⟩

/-- Witness for C1 at a concrete dataset and window. -/
theorem df_filtered_window_spec_witness :
    (0 : Nat) ≤ 10
      ∧ (df_filtered [] 0 10
            = (List.filter (fun r => decide (0 ≤ r.timestamp.tod) && decide (r.timestamp.tod ≤ 10)) [])
          ∧ (df_filtered [] 0 10).Sublist []) :=
  ⟨by decide, df_filtered_window_spec [] 0 10 (by decide)⟩

/-- C5: when start > end the time filter returns the empty view (literal
comparison semantics, no midnight wraparound), and — being a total
function — raises no error on the empty result. -/
theorem df_filtered_empty_of_start_gt_end (df : List Record) (s e : Nat)
    (h : e < s) : df_filtered df s e = [] := by
  rw [df_filtered_eq_filter]
  apply List.filter_eq_nil_iff.mpr
  intro r _ hr
  simp only [Bool.and_eq_true, decide_eq_true_eq] at hr
  exact absurd (le_trans hr.1 hr.2) (not_le.mpr h)

/-- Witness for C5 at a concrete dataset and reversed window. -/
theorem df_filtered_empty_witness :
    (3 : Nat) < 7 ∧ df_filtered [] 7 3 = [] :=
  ⟨by decide, df_filtered_empty_of_start_gt_end [] 7 3 (by decide)⟩

/-- C10: the time filter is idempotent — re-filtering its own output with the
same window changes nothing. -/
theorem df_filtered_idempotent (df : List Record) (s e : Nat) :
    df_filtered (df_filtered df s e) s e = df_filtered df s e := by
  rw [df_filtered_eq_filter, df_filtered_eq_filter df s e]
  induction df with
  | nil => rfl
  | cons r rs ih =>
      by_cases h : (decide (s ≤ r.timestamp.tod) && decide (r.timestamp.tod ≤ e)) = true
      · simp [List.filter, h, ih]
      · simp only [Bool.not_eq_true] at h
        simp [List.filter, h, ih]

/-- C9: one render cycle — time filtering (lines 36-39) and the
`Efficiency` column assignment on the filtered copy (line 55) — leaves
every row and every column of the original loaded Dataset unchanged:
mask selection copies the selected rows, so the state still carries `df0`
itself. -/
theorem renderCycle_preserves_df (df0 : List Record) (s e : Nat) :
    (renderCycle df0 s e).df = df0 :=
  rfl

/-- C4 counterexample: on a Filtered View that is empty (here `[recA]`
filtered through the reversed window `7 > 3`), the `Energy Saved` KPI is
the finite float `0.0` — pandas `sum()` of an empty column — not a
NaN/"no data" state, refuting "every aggregate ... reports an explicit
no-data/NaN state". -/
theorem kpiEnergySaved_empty_is_zero :
    kpiEnergySaved (df_filtered [recA] 7 3) = PFloat.val 0
    ∧ kpiEnergySaved (df_filtered [recA] 7 3) ≠ PFloat.nan := by
  decide

/-- C4 (amended): on the empty Filtered View, `AvgPanelTemp` and
`MaxPower` report NaN, while `EnergySaved` and `CO2Saved` report the
finite sum `0.0`; all four aggregates are total (no exception is
raised). -/
theorem empty_view_aggregates :
    kpiMaxPower [] = PFloat.nan
    ∧ kpiAvgPanelTemp [] = PFloat.nan
    ∧ kpiEnergySaved [] = PFloat.val 0
    ∧ kpiCO2Saved [] = PFloat.val 0 := by
  decide

/-- C2: for every row of the Filtered View the derived `Efficiency`
equals `Power_Output_W / (Solar_Irradiance_W/m2 * PANEL_AREA)` with
`PANEL_AREA` fixed at `1.6`; it is computed for every row, and when the
irradiance is zero the result is a non-finite value (±inf or NaN),
represented as such rather than clamped or raised as an error. -/
theorem efficiency_spec (v : List Record) (r : Record) (h : r ∈ v) :
    PANEL_AREA = 1.6
    ∧ ∃ rE, rE ∈ withEfficiency v ∧ rE.toRecord = r
        ∧ (r.solar_Irradiance_W_m2 ≠ 0 →
            rE.efficiency
              = PFloat.val (r.power_Output_W / (r.solar_Irradiance_W_m2 * PANEL_AREA)))
        ∧ (r.solar_Irradiance_W_m2 = 0 → rE.efficiency.isFinite = false) := by
  refine ⟨rfl, addEfficiency r, List.mem_map_of_mem addEfficiency h, rfl, ?_, ?_⟩
  · intro hir
    have hpa : PANEL_AREA ≠ 0 := by norm_num [PANEL_AREA]
    have hden : r.solar_Irradiance_W_m2 * PANEL_AREA ≠ 0 := mul_ne_zero hir hpa
    simp [addEfficiency, pdDiv, hden]
  · intro hir
    have hden : r.solar_Irradiance_W_m2 * PANEL_AREA = 0 := by rw [hir, zero_mul]
    simp only [addEfficiency, pdDiv, hden, if_pos]
    split
    · rfl
    · split <;> rfl

/-- Witness for C2 at the spec's example row
(`Power_Output_W = 160`, `Solar_Irradiance_W/m2 = 100`). -/
theorem efficiency_spec_witness :
    recA ∈ [recA]
    ∧ (PANEL_AREA = 1.6
       ∧ ∃ rE, rE ∈ withEfficiency [recA] ∧ rE.toRecord = recA
           ∧ (recA.solar_Irradiance_W_m2 ≠ 0 →
               rE.efficiency
                 = PFloat.val (recA.power_Output_W / (recA.solar_Irradiance_W_m2 * PANEL_AREA)))
           ∧ (recA.solar_Irradiance_W_m2 = 0 → rE.efficiency.isFinite = false)) :=
  ⟨List.mem_singleton.mpr rfl, efficiency_spec [recA] recA (List.mem_singleton.mpr rfl)⟩

/-- C8: with non-negative `Energy_Saved_kWh` and `CO2_Emissions_Saved_kg`
columns, the KPI sums are monotonic in the filtered row set: whenever one
filtered view of a dataset is contained (as an ordered row subset) in
another, its sums do not exceed the other's. -/
theorem sums_monotone (df : List Record) (s1 e1 s2 e2 : Nat)
    (hsub : (df_filtered df s1 e1).Sublist (df_filtered df s2 e2))
    (hE : ∀ r ∈ df, 0 ≤ r.energy_Saved_kWh)
    (hC : ∀ r ∈ df, 0 ≤ r.co2_Emissions_Saved_kg) :
    sumEnergy (df_filtered df s1 e1) ≤ sumEnergy (df_filtered df s2 e2)
    ∧ sumCO2 (df_filtered df s1 e1) ≤ sumCO2 (df_filtered df s2 e2) := by
  constructor
  · apply List.Sublist.sum_le_sum (hsub.map _)
    intro a ha
    rcases List.mem_map.mp ha with ⟨r, hr, rfl⟩
    exact hE r ((df_filtered_sublist df s2 e2).subset hr)
  · apply List.Sublist.sum_le_sum (hsub.map _)
    intro a ha
    rcases List.mem_map.mp ha with ⟨r, hr, rfl⟩
    exact hC r ((df_filtered_sublist df s2 e2).subset hr)

/-- Witness for C8: the empty view from a reversed window versus the
all-day view over a one-row dataset with non-negative savings columns. -/
theorem sums_monotone_witness :
    (df_filtered [recA] 7 3).Sublist (df_filtered [recA] 0 86400)
    ∧ (∀ r ∈ [recA], 0 ≤ r.energy_Saved_kWh)
    ∧ (∀ r ∈ [recA], 0 ≤ r.co2_Emissions_Saved_kg)
    ∧ (sumEnergy (df_filtered [recA] 7 3) ≤ sumEnergy (df_filtered [recA] 0 86400)
       ∧ sumCO2 (df_filtered [recA] 7 3) ≤ sumCO2 (df_filtered [recA] 0 86400)) := by
  have hsub : (df_filtered [recA] 7 3).Sublist (df_filtered [recA] 0 86400) := by
    have h1 : df_filtered [recA] 7 3 = [] := by decide
    rw [h1]; exact List.nil_sublist _
  have hE : ∀ r ∈ [recA], 0 ≤ r.energy_Saved_kWh := by decide
  have hC : ∀ r ∈ [recA], 0 ≤ r.co2_Emissions_Saved_kg := by decide
  exact ⟨hsub, hE, hC, sums_monotone [recA] 7 3 0 86400 hsub hE hC⟩

/-- C7: the fault table holds exactly the rows whose `Fault_Status` differs
from the sentinel `"No Fault"` (in view order), the warning banner shows
iff at least one such row exists, and the success banner shows iff none
does. -/
theorem faults_spec (v : List RecordE) :
    faults v = (v.filter fun r => decide (r.fault_Status ≠ "No Fault"))
    ∧ (faultIndicator v = FaultIndicator.warning ↔ ∃ r ∈ v, r.fault_Status ≠ "No Fault")
    ∧ (faultIndicator v = FaultIndicator.success ↔ ∀ r ∈ v, r.fault_Status = "No Fault") := by
  have hf : faults v = v.filter fun r => decide (r.fault_Status ≠ "No Fault") :=
    maskSelect_map _ v
  have hempty : faults v = [] ↔ ∀ r ∈ v, r.fault_Status = "No Fault" := by
    rw [hf, List.filter_eq_nil_iff]
    constructor
    · intro hA r hr
      simpa using hA r hr
    · intro hA r hr
      simpa using hA r hr
  refine ⟨hf, ?_, ?_⟩
  · by_cases hall : ∀ r ∈ v, r.fault_Status = "No Fault"
    · have hv : faults v = [] := hempty.mpr hall
      have hi : faultIndicator v = FaultIndicator.success := by
        simp [faultIndicator, hv]
      rw [hi]
      constructor
      · intro hw; cases hw
      · rintro ⟨r, hr, hne⟩; exact absurd (hall r hr) hne
    · have hv : faults v ≠ [] := fun hnil => hall (hempty.mp hnil)
      have hi : faultIndicator v = FaultIndicator.warning := by
        rw [faultIndicator, if_neg]
        simpa [List.isEmpty_iff] using hv
      rw [hi]
      constructor
      · intro _
        push_neg at hall
        exact hall
      · intro _; rfl
  · by_cases hall : ∀ r ∈ v, r.fault_Status = "No Fault"
    · have hv : faults v = [] := hempty.mpr hall
      have hi : faultIndicator v = FaultIndicator.success := by
        simp [faultIndicator, hv]
      rw [hi]
      exact ⟨fun _ => hall, fun _ => rfl⟩
    · have hv : faults v ≠ [] := fun hnil => hall (hempty.mp hnil)
      have hi : faultIndicator v = FaultIndicator.warning := by
        rw [faultIndicator, if_neg]
        simpa [List.isEmpty_iff] using hv
      rw [hi]
      constructor
      · intro hw; cases hw
      · intro h2; exact absurd h2 hall

/-- Parsing back one exported row reproduces the row whenever its `Hour`
and `Month` columns agree with the values `load_data` would re-derive. -/
theorem parseRow_exportRow (r : RecordE)
    (hh : r.hour = r.timestamp.hour) (hm : r.month = r.timestamp.month) :
    parseRow (exportRow r) = some r := by
  rcases r with ⟨⟨ts, p, ir, b, c, en, pt, lc, fs, hr, mo⟩, ef⟩
  have hh2 : hr = ts.hour := hh
  have hm2 : mo = ts.month := hm
  subst hh2
  subst hm2
  rfl

/-- Parsing back the whole exported table reproduces the view whenever
every row carries loader-derived `Hour`/`Month` values. -/
theorem parseCsv_exportCsv (v : List RecordE) :
    (∀ rE ∈ v, rE.hour = rE.timestamp.hour ∧ rE.month = rE.timestamp.month) →
    parseCsv (exportCsv v) = some v := by
  induction v with
  | nil => intro _; rfl
  | cons r rs ih =>
      intro hinv
      have hr := hinv r (List.mem_cons_self r rs)
      have hrs := fun rE h2 => hinv rE (List.mem_cons_of_mem r h2)
      have hpr := parseRow_exportRow r hr.1 hr.2
      have htl := ih hrs
      simp only [parseCsv, exportCsv, List.map_cons, List.mapM_cons] at htl ⊢
      rw [hpr]
      rw [htl]
      rfl

/-- C6 counterexample: the exported CSV of a view row whose persisted
`Efficiency` value was tampered with still contains `Hour`, `Month` and
`Efficiency` columns, and Loader-equivalent re-parsing returns the
tampered value verbatim — the derived column is persisted in the CSV and
read back, not recomputed, refuting the claim as stated. -/
theorem export_persists_derived :
    "Hour" ∈ (exportCsv [recB]).header
    ∧ "Month" ∈ (exportCsv [recB]).header
    ∧ "Efficiency" ∈ (exportCsv [recB]).header
    ∧ parseCsv (exportCsv [recB]) = some [recB]
    ∧ recB.efficiency ≠ pdDiv recB.power_Output_W (recB.solar_Irradiance_W_m2 * PANEL_AREA) := by
  refine ⟨by decide, by decide, by decide, rfl, ?_⟩
  have h100 : (100 : ℚ) * PANEL_AREA ≠ 0 := by norm_num [PANEL_AREA]
  show PFloat.val 42 ≠ pdDiv 160 (100 * PANEL_AREA)
  rw [pdDiv, if_neg h100]
  intro hco
  have h42 : (42 : ℚ) = 160 / (100 * PANEL_AREA) := by injection hco
  norm_num [PANEL_AREA] at h42

/-- C6 (amended): exporting the Filtered View writes a header row and
every row in order with no index column — including the derived `Hour`,
`Month` and `Efficiency` columns, which are persisted — and
Loader-equivalent re-parsing reproduces exactly the same rows and values
(`Hour` and `Month` being re-derived by the Loader to the same values
they already carry; `Efficiency` being read back as an ordinary
persisted column). -/
theorem export_roundtrip (raw : List RawRecord) (s e : Nat) :
    (exportCsv (withEfficiency (df_filtered (load_data raw) s e))).header = exportHeader
    ∧ parseCsv (exportCsv (withEfficiency (df_filtered (load_data raw) s e)))
        = some (withEfficiency (df_filtered (load_data raw) s e)) := by
  refine ⟨rfl, parseCsv_exportCsv _ ?_⟩
  intro rE hmem
  simp only [withEfficiency] at hmem
  rcases List.mem_map.mp hmem with ⟨r, hr, rfl⟩
  have hrd : r ∈ load_data raw := (df_filtered_sublist _ _ _).subset hr
  simp only [load_data] at hrd
  rcases List.mem_map.mp hrd with ⟨a, _, rfl⟩
  exact ⟨rfl, rfl⟩

/-- Keys after inserting an observation: exactly the inserted hour plus the
keys already present. -/
theorem keys_insertGroup (k2 : Nat) (p : ℚ) (acc : List (Nat × ℚ × Nat)) (k : Nat) :
    k ∈ (insertGroup k2 p acc).map Prod.fst ↔ k = k2 ∨ k ∈ acc.map Prod.fst := by
  induction acc with
  | nil => simp [insertGroup]
  | cons g gs ih =>
      rcases lt_trichotomy k2 g.1 with h1 | h1 | h1
      · simp [insertGroup, h1]
      · have hlt : ¬ k2 < g.1 := by omega
        simp only [insertGroup, if_neg hlt, if_pos h1, List.map_cons, List.mem_cons]
        rw [h1]
        tauto
      · have hlt : ¬ k2 < g.1 := by omega
        have hne : ¬ k2 = g.1 := by omega
        simp only [insertGroup, if_neg hlt, if_neg hne, List.map_cons, List.mem_cons, ih]
        tauto

/-- Inserting into a key-sorted accumulator keeps the keys strictly
ascending. -/
theorem sorted_insertGroup (k2 : Nat) (p : ℚ) (acc : List (Nat × ℚ × Nat))
    (hs : acc.Pairwise fun a b => a.1 < b.1) :
    (insertGroup k2 p acc).Pairwise fun a b => a.1 < b.1 := by
  induction acc with
  | nil => simp [insertGroup]
  | cons g gs ih =>
      rcases List.pairwise_cons.mp hs with ⟨hg, hgs⟩
      rcases lt_trichotomy k2 g.1 with h1 | h1 | h1
      · simp only [insertGroup, if_pos h1]
        refine List.Pairwise.cons ?_ hs
        intro b hb
        rcases List.mem_cons.mp hb with rfl | hb2
        · exact h1
        · exact lt_trans h1 (hg b hb2)
      · have hlt : ¬ k2 < g.1 := by omega
        simp only [insertGroup, if_neg hlt, if_pos h1]
        exact List.Pairwise.cons hg hgs
      · have hlt : ¬ k2 < g.1 := by omega
        have hne : ¬ k2 = g.1 := by omega
        simp only [insertGroup, if_neg hlt, if_neg hne]
        refine List.Pairwise.cons ?_ (ih hgs)
        intro b hb
        have hbk : b.1 ∈ (insertGroup k2 p gs).map Prod.fst :=
          List.mem_map_of_mem Prod.fst hb
        rcases (keys_insertGroup k2 p gs b.1).mp hbk with hbh | hbg
        · omega
        · rcases List.mem_map.mp hbg with ⟨c, hc, hceq⟩
          have := hg c hc
          omega

/-- The group accumulator of a view is key-sorted. -/
theorem sorted_groupAcc (v : List RecordE) :
    (groupAcc v).Pairwise fun a b => a.1 < b.1 := by
  induction v with
  | nil => simp [groupAcc]
  | cons r rs ih => exact sorted_insertGroup _ _ _ ih

/-- `findGroup` misses exactly when the key is absent. -/
theorem findGroup_eq_none (k : Nat) (l : List (Nat × ℚ × Nat)) :
    findGroup k l = none ↔ k ∉ l.map Prod.fst := by
  induction l with
  | nil => simp [findGroup]
  | cons g gs ih =>
      by_cases hk : k = g.1
      · simp [findGroup, hk]
      · simp [findGroup, hk, ih]

/-- Looking up the inserted key after an insertion: a fresh `(p, 1)` entry
when the key was absent, otherwise the old entry with `p` added and the
count bumped. -/
theorem findGroup_insertGroup_self (k : Nat) (p : ℚ) (acc : List (Nat × ℚ × Nat))
    (hs : acc.Pairwise fun a b => a.1 < b.1) :
    findGroup k (insertGroup k p acc)
      = some (match findGroup k acc with
              | none => (p, 1)
              | some sn => (p + sn.1, sn.2 + 1)) := by
  induction acc with
  | nil => simp [insertGroup, findGroup]
  | cons g gs ih =>
      rcases List.pairwise_cons.mp hs with ⟨hg, hgs⟩
      rcases lt_trichotomy k g.1 with h1 | h1 | h1
      · have hne : k ≠ g.1 := Nat.ne_of_lt h1
        have hnone : findGroup k gs = none := by
          rw [findGroup_eq_none]
          intro hmem
          rcases List.mem_map.mp hmem with ⟨c, hc, hceq⟩
          have := hg c hc
          omega
        simp [insertGroup, h1, findGroup, hne, hnone]
      · have hlt : ¬ k < g.1 := by omega
        simp [insertGroup, hlt, h1, findGroup]
      · have hlt : ¬ k < g.1 := by omega
        have hne : ¬ k = g.1 := by omega
        simp [insertGroup, hlt, hne, findGroup, ih hgs]

/-- Looking up any other key is unaffected by an insertion. -/
theorem findGroup_insertGroup_other (k2 : Nat) (p : ℚ) (acc : List (Nat × ℚ × Nat))
    (k : Nat) (hk : k ≠ k2) :
    findGroup k (insertGroup k2 p acc) = findGroup k acc := by
  induction acc with
  | nil => simp [insertGroup, findGroup, hk]
  | cons g gs ih =>
      rcases lt_trichotomy k2 g.1 with h1 | h1 | h1
      · simp [insertGroup, h1, findGroup, hk]
      · have hlt : ¬ k2 < g.1 := by omega
        have hkg : ¬ k = g.1 := by omega
        simp [insertGroup, hlt, h1, findGroup, hkg]
      · have hlt : ¬ k2 < g.1 := by omega
        have hne : ¬ k2 = g.1 := by omega
        by_cases hkg : k = g.1
        · simp [insertGroup, hlt, hne, findGroup, hkg]
        · simp [insertGroup, hlt, hne, findGroup, hkg, ih]

/-- The accumulated entry of an hour is the sum and count of
`Power_Output_W` over exactly the view rows in that hour, absent iff the
hour has no rows. -/
theorem findGroup_groupAcc (v : List RecordE) (k : Nat) :
    findGroup k (groupAcc v)
      = if (v.filter fun r => decide (r.hour = k)).isEmpty then none
        else some (((v.filter fun r => decide (r.hour = k)).map (·.power_Output_W)).sum,
                   (v.filter fun r => decide (r.hour = k)).length) := by
  induction v with
  | nil => simp [groupAcc, findGroup]
  | cons r rs ih =>
      have hstep : groupAcc (r :: rs) = insertGroup r.hour r.power_Output_W (groupAcc rs) :=
        rfl
      by_cases hk : r.hour = k
      · subst hk
        rw [hstep, findGroup_insertGroup_self _ _ _ (sorted_groupAcc rs), ih]
        by_cases he : (rs.filter fun x => decide (x.hour = r.hour)).isEmpty
        · have hfe : rs.filter (fun x => decide (x.hour = r.hour)) = [] :=
            List.isEmpty_iff.mp he
          simp [List.filter_cons, hfe]
        · have hfne : rs.filter (fun x => decide (x.hour = r.hour)) ≠ [] := by
            intro hnil
            rw [hnil] at he
            exact he rfl
          simp [List.filter_cons, he]
      · have hkne : k ≠ r.hour := fun hc => hk hc.symm
        rw [hstep, findGroup_insertGroup_other _ _ _ _ hkne, ih]
        simp [List.filter_cons, hk]

/-- In a key-sorted accumulator, lookup of a member's key returns that
member's data. -/
theorem findGroup_of_mem_sorted (l : List (Nat × ℚ × Nat)) (g : Nat × ℚ × Nat)
    (hs : l.Pairwise fun a b => a.1 < b.1) (hg : g ∈ l) :
    findGroup g.1 l = some g.2 := by
  induction l with
  | nil => cases hg
  | cons a as ih =>
      rcases List.pairwise_cons.mp hs with ⟨ha, has⟩
      rcases List.mem_cons.mp hg with rfl | hg2
      · simp [findGroup]
      · have hne : g.1 ≠ a.1 := by
          have := ha g hg2
          omega
        simp [findGroup, hne, ih has hg2]

/-- C3: `hourly_avg` maps each hour to the arithmetic mean (sum divided by
count) of `Power_Output_W` over exactly the view rows with that `Hour`;
its keys are exactly the hours having at least one row in the view, and
the mapping is ordered by hour strictly ascending. -/
theorem hourly_avg_spec (v : List RecordE) :
    (hourly_avg v).Pairwise (fun a b => a.1 < b.1)
    ∧ (∀ k : Nat, k ∈ (hourly_avg v).map Prod.fst ↔ ∃ r ∈ v, r.hour = k)
    ∧ ∀ g ∈ hourly_avg v,
        g.2 = ((v.filter fun r => decide (r.hour = g.1)).map (·.power_Output_W)).sum
                / ((v.filter fun r => decide (r.hour = g.1)).length : ℚ) := by
  have hkeymem : ∀ k : Nat, k ∈ (groupAcc v).map Prod.fst ↔ ∃ r ∈ v, r.hour = k := by
    intro k
    have hchar := findGroup_groupAcc v k
    constructor
    · intro hmem
      by_cases he : (v.filter fun r => decide (r.hour = k)).isEmpty
      · rw [if_pos he] at hchar
        exact absurd hmem ((findGroup_eq_none k _).mp hchar)
      · have hne : v.filter (fun r => decide (r.hour = k)) ≠ [] := by
          intro hnil
          rw [hnil] at he
          exact he rfl
        rcases List.exists_mem_of_ne_nil _ hne with ⟨r, hrmem⟩
        rcases List.mem_filter.mp hrmem with ⟨hrv, hrk⟩
        exact ⟨r, hrv, by simpa using hrk⟩
    · rintro ⟨r, hrv, hrk⟩
      have hne : v.filter (fun r2 => decide (r2.hour = k)) ≠ [] := by
        intro hnil
        have hmem2 : r ∈ v.filter fun r2 => decide (r2.hour = k) :=
          List.mem_filter.mpr ⟨hrv, by simpa using hrk⟩
        rw [hnil] at hmem2
        cases hmem2
      have he : ¬ (v.filter fun r2 => decide (r2.hour = k)).isEmpty := by
        simpa [List.isEmpty_iff] using hne
      rw [if_neg he] at hchar
      by_contra hmem
      rw [← findGroup_eq_none] at hmem
      rw [hmem] at hchar
      cases hchar
  refine ⟨?_, ?_, ?_⟩
  · rw [hourly_avg, List.pairwise_map]
    exact sorted_groupAcc v
  · intro k
    have hmapeq : (hourly_avg v).map Prod.fst = (groupAcc v).map Prod.fst := by
      rw [hourly_avg, List.map_map]
      rfl
    rw [hmapeq]
    exact hkeymem k
  · intro g hg
    rw [hourly_avg] at hg
    rcases List.mem_map.mp hg with ⟨a, ha, rfl⟩
    have hf := findGroup_of_mem_sorted _ a (sorted_groupAcc v) ha
    rw [findGroup_groupAcc] at hf
    by_cases he : (v.filter fun r => decide (r.hour = a.1)).isEmpty
    · rw [if_pos he] at hf
      cases hf
    · rw [if_neg he] at hf
      have ha2 : a.2
          = (((v.filter fun r => decide (r.hour = a.1)).map (·.power_Output_W)).sum,
             (v.filter fun r => decide (r.hour = a.1)).length) := by
        injection hf with hf2
        exact hf2.symm
      rw [ha2]
